import Mathlib

/-!
Verification of the patreon-rs API core (src/api.rs): the generic JSON
document envelope decoder, the closed-enum string codec declared with the
`enum_str!` macro, and the error-reporting path of `PatreonApi::api_call`.

The Rust code decodes with serde_json. We embed that boundary as: a JSON
value type `Json`, a total fuel-based parser `parseTop` modelling
`serde_json::from_str`'s syntax acceptance (whole input must be one JSON
value plus trailing whitespace), and per-type decoders modelling the
serde_derive-generated `Deserialize` implementations (unknown object keys
ignored, duplicate known keys rejected, `Option` fields defaulting to
`none` when absent, `null` decoding to `none`).
-/

/-- JSON number token: serde_json keeps integers (no fraction, no exponent)
exactly, and any number written with a fraction or exponent is a float,
which the integer deserializers of the record fields reject. -/
inductive JNum where
  | int : Int → JNum
  | float : JNum
deriving DecidableEq

/-- JSON values, as produced by the parser: objects keep their key-value
pairs in input order, duplicates included. -/
inductive Json where
  | null : Json
  | bool : Bool → Json
  | num : JNum → Json
  | str : String → Json
  | arr : List Json → Json
  | obj : List (String × Json) → Json

/-- JSON insignificant whitespace characters. -/
def jsonWs (c : Char) : Bool :=
  c = ' ' || c = '\t' || c = '\n' || c = '\r'

/-- Drop leading JSON whitespace. -/
def skipWs : List Char → List Char
  | [] => []
  | c :: rest => if jsonWs c then skipWs rest else c :: rest

/-- Value of one hexadecimal digit. -/
def hexVal (c : Char) : Option Nat :=
  if '0' ≤ c && c ≤ '9' then some (c.toNat - 48)
  else if 'a' ≤ c && c ≤ 'f' then some (c.toNat - 87)
  else if 'A' ≤ c && c ≤ 'F' then some (c.toNat - 55)
  else none

/-- Parse the body of a JSON string literal after the opening quote,
accumulating decoded characters in reverse; handles the JSON escapes
including surrogate pairs, and rejects raw control characters, as
serde_json does. -/
def parseStringBody : List Char → List Char → Option (String × List Char)
  | _, [] => none
  | acc, '"' :: rest => some (String.mk acc.reverse, rest)
  | acc, '\\' :: esc :: rest =>
    if esc = '"' then parseStringBody ('"' :: acc) rest
    else if esc = '\\' then parseStringBody ('\\' :: acc) rest
    else if esc = '/' then parseStringBody ('/' :: acc) rest
    else if esc = 'b' then parseStringBody (Char.ofNat 8 :: acc) rest
    else if esc = 'f' then parseStringBody (Char.ofNat 12 :: acc) rest
    else if esc = 'n' then parseStringBody ('\n' :: acc) rest
    else if esc = 'r' then parseStringBody ('\r' :: acc) rest
    else if esc = 't' then parseStringBody ('\t' :: acc) rest
    else if esc = 'u' then
      match rest with
      | a :: b :: c :: d :: rest2 =>
        match hexVal a, hexVal b, hexVal c, hexVal d with
        | some x, some y, some z, some w =>
          let n : Nat := ((x * 16 + y) * 16 + z) * 16 + w
          if n < 55296 || 57344 ≤ n then
            parseStringBody (Char.ofNat n :: acc) rest2
          else if n < 56320 then
            match rest2 with
            | e1 :: e2 :: a2 :: b2 :: c2 :: d2 :: rest3 =>
              if e1 = '\\' && e2 = 'u' then
                match hexVal a2, hexVal b2, hexVal c2, hexVal d2 with
                | some x2, some y2, some z2, some w2 =>
                  let m : Nat := ((x2 * 16 + y2) * 16 + z2) * 16 + w2
                  if 56320 ≤ m && m < 57344 then
                    parseStringBody
                      (Char.ofNat (65536 + (n - 55296) * 1024 + (m - 56320)) :: acc)
                      rest3
                  else none
                | _, _, _, _ => none
              else none
            | _ => none
          else none
        | _, _, _, _ => none
      | _ => none
    else none
  | acc, c :: rest =>
    if c.toNat < 32 then none else parseStringBody (c :: acc) rest

/-- Split a leading run of decimal digits off a character list. -/
def takeDigits : List Char → List Char × List Char
  | [] => ([], [])
  | c :: rest =>
    if c.isDigit then
      let p := takeDigits rest
      (c :: p.1, p.2)
    else ([], c :: rest)

/-- Numeric value of a digit list. -/
def digitsToNat (ds : List Char) : Nat :=
  ds.foldl (fun acc c => acc * 10 + (c.toNat - 48)) 0

/-- Integer JSON number with optional sign. -/
def mkInt (neg : Bool) (ip : Nat) : JNum :=
  .int (if neg then -(ip : Int) else (ip : Int))

/-- Parse a mandatory exponent part (after the e or E); the result is a
float token. -/
def parseExpPart (cs : List Char) : Option (JNum × List Char) :=
  let cs1 := match cs with
    | '+' :: r => r
    | '-' :: r => r
    | _ => cs
  let p := takeDigits cs1
  if p.1.isEmpty then none else some (JNum.float, p.2)

/-- After a fraction, optionally consume an exponent; the number is a
float either way. -/
def finishFloat (cs : List Char) : Option (JNum × List Char) :=
  match cs with
  | c :: rest => if c = 'e' || c = 'E' then parseExpPart rest else some (JNum.float, c :: rest)
  | [] => some (JNum.float, [])

/-- After the integer part, look for a fraction or exponent per the JSON
number grammar. -/
def finishNumber (neg : Bool) (ip : Nat) (cs : List Char) : Option (JNum × List Char) :=
  match cs with
  | '.' :: rest =>
    let p := takeDigits rest
    if p.1.isEmpty then none else finishFloat p.2
  | c :: rest =>
    if c = 'e' || c = 'E' then parseExpPart rest
    else some (mkInt neg ip, c :: rest)
  | [] => some (mkInt neg ip, [])

/-- Parse a JSON number: optional minus, integer part without leading
zeros, optional fraction and exponent. -/
def parseNumberCore (cs : List Char) : Option (JNum × List Char) :=
  let signSplit : Bool × List Char := match cs with
    | '-' :: rest => (true, rest)
    | _ => (false, cs)
  match signSplit.2 with
  | c :: rest =>
    if c = '0' then finishNumber signSplit.1 0 rest
    else if c.isDigit then
      let p := takeDigits rest
      finishNumber signSplit.1 (digitsToNat (c :: p.1)) p.2
    else none
  | [] => none

mutual

/-- Parse one JSON value after skipping whitespace; fuel bounds recursion
depth so the parser is total. -/
def parseValue : Nat → List Char → Option (Json × List Char)
  | 0, _ => none
  | Nat.succ fuel, cs =>
    match skipWs cs with
    | 'n' :: 'u' :: 'l' :: 'l' :: rest => some (.null, rest)
    | 't' :: 'r' :: 'u' :: 'e' :: rest => some (.bool true, rest)
    | 'f' :: 'a' :: 'l' :: 's' :: 'e' :: rest => some (.bool false, rest)
    | '"' :: rest =>
      match parseStringBody [] rest with
      | some (s, r) => some (.str s, r)
      | none => none
    | '[' :: rest =>
      match skipWs rest with
      | ']' :: r => some (.arr [], r)
      | cs2 => parseElems fuel cs2 []
    | '{' :: rest =>
      match skipWs rest with
      | '}' :: r => some (.obj [], r)
      | cs2 => parseMembers fuel cs2 []
    | cs2 =>
      match parseNumberCore cs2 with
      | some (n, r) => some (.num n, r)
      | none => none

/-- Parse the elements of a non-empty JSON array, accumulating in
reverse. -/
def parseElems : Nat → List Char → List Json → Option (Json × List Char)
  | 0, _, _ => none
  | Nat.succ fuel, cs, acc =>
    match parseValue fuel cs with
    | some (j, r) =>
      match skipWs r with
      | ',' :: r2 => parseElems fuel r2 (j :: acc)
      | ']' :: r2 => some (.arr (j :: acc).reverse, r2)
      | _ => none
    | none => none

/-- Parse the members of a non-empty JSON object, accumulating in
reverse; keys are full JSON strings. -/
def parseMembers : Nat → List Char → List (String × Json) → Option (Json × List Char)
  | 0, _, _ => none
  | Nat.succ fuel, cs, acc =>
    match skipWs cs with
    | '"' :: rest =>
      match parseStringBody [] rest with
      | some (k, r) =>
        match skipWs r with
        | ':' :: r2 =>
          match parseValue fuel r2 with
          | some (v, r3) =>
            match skipWs r3 with
            | ',' :: r4 => parseMembers fuel r4 ((k, v) :: acc)
            | '}' :: r4 => some (.obj ((k, v) :: acc).reverse, r4)
            | _ => none
          | none => none
        | _ => none
      | none => none
    | _ => none

end

/-- Parse a whole input string as a single JSON value with only trailing
whitespace, as serde_json from_str requires; `none` means the bytes are
not valid JSON. -/
def parseTop (s : String) : Option Json :=
  match parseValue (2 * s.data.length + 8) s.data with
  | some (j, rest) => if skipWs rest = [] then some j else none
  | none => none

/-- Extract the value of a named object field, requiring the key to occur
at most once: serde_derive struct deserializers reject a duplicate of a
declared field, skip keys they do not match, and report an `ok none` when
the field never occurs. -/
def getUnique (name : String) : List (String × Json) → Except String (Option Json)
  | [] => .ok none
  | (k, v) :: rest =>
    if k = name then
      if rest.any (fun p => p.1 == name) then .error ("duplicate field " ++ name)
      else .ok (some v)
    else getUnique name rest

/-- Values bound to a key in an object, in order, duplicates kept; the
specification-side view of an object used to characterize `getUnique`. -/
def fieldValues (name : String) (kvs : List (String × Json)) : List Json :=
  (kvs.filter (fun p => p.1 == name)).map Prod.snd

/-- Decode a JSON string, as serde does for a Rust `String` field. -/
def decodeString : Json → Except String String
  | .str s => .ok s
  | _ => .error ("invalid type: expected a string")

/-- Decode a JSON boolean, as serde does for a Rust `bool` field. -/
def decodeBool : Json → Except String Bool
  | .bool b => .ok b
  | _ => .error ("invalid type: expected a boolean")

/-- Decode an i64 field: serde_json accepts only integer number tokens in
the i64 range and rejects floats. -/
def decodeI64 : Json → Except String Int
  | .num (.int i) =>
    if -(2 ^ 63) ≤ i ∧ i < 2 ^ 63 then .ok i
    else .error ("invalid value: integer out of range for i64")
  | .num .float => .error ("invalid type: floating point, expected i64")
  | _ => .error ("invalid type: expected an integer")

/-- UTC timestamp as carried by the records; chrono's `DateTime<Utc>` is
an external dependency, modelled here as the RFC 3339 text it was decoded
from. -/
structure DateTimeUtc where
  raw : String
deriving DecidableEq

/-- Shape check for the canonical RFC 3339 UTC form accepted by chrono's
serde support (restricted to the `YYYY-MM-DDTHH:MM:SSZ` shape the claims
exercise). -/
def isRfc3339Basic (s : String) : Bool :=
  match s.data with
  | [y1, y2, y3, y4, '-', m1, m2, '-', d1, d2, 'T',
     h1, h2, ':', mi1, mi2, ':', s1, s2, 'Z'] =>
    [y1, y2, y3, y4, m1, m2, d1, d2, h1, h2, mi1, mi2, s1, s2].all Char.isDigit
  | _ => false

/-- Decode a `DateTime<Utc>` field: a string in RFC 3339 form, anything
else is a decode failure. -/
def decodeDateTime : Json → Except String DateTimeUtc
  | .str s =>
    if isRfc3339Basic s then .ok ⟨s⟩
    else .error ("invalid value: expected an RFC 3339 date-time string")
  | _ => .error ("invalid type: expected a date-time string")

/-- Decode an `Option<T>` value: serde maps JSON null to `None` and
delegates anything else to `T`. -/
def decodeOption (dA : Json → Except String α) : Json → Except String (Option α)
  | .null => .ok none
  | j =>
    match dA j with
    | .ok a => .ok (some a)
    | .error e => .error e

/-- Decode a required struct field: absence is a missing-field error, as
serde_derive reports for a non-`Option` field. -/
def getReqField (dA : Json → Except String α) (name : String)
    (kvs : List (String × Json)) : Except String α :=
  match getUnique name kvs with
  | .error e => .error e
  | .ok none => .error ("missing field " ++ name)
  | .ok (some j) => dA j

/-- Decode an `Option` struct field: serde_derive treats a missing
`Option` field as `None`, and a present one by `Option`'s deserializer
(null to `None`, otherwise `Some`). -/
def getOptField (dA : Json → Except String α) (name : String)
    (kvs : List (String × Json)) : Except String (Option α) :=
  match getUnique name kvs with
  | .error e => .error e
  | .ok none => .ok none
  | .ok (some j) => decodeOption dA j

/-- Effectful map over a list in the `Except` monad, the model of serde's
`Vec<I>` deserialization: elements decoded in order, first failure fails
the whole vector. -/
def mapME (f : α → Except String β) : List α → Except String (List β)
  | [] => .ok []
  | x :: xs =>
    match f x with
    | .error e => .error e
    | .ok y =>
      match mapME f xs with
      | .error e => .error e
      | .ok ys => .ok (y :: ys)

/-- Decode a `Vec<I>` field: a JSON array whose elements all decode. -/
def decodeVec (dI : Json → Except String α) : Json → Except String (List α)
  | .arr js => mapME dI js
  | _ => .error ("invalid type: expected an array")


/-- Closed enum `IdentityIncldue` declared through `enum_str!` with
explicit literals (the source keeps this spelling). -/
inductive IdentityIncldue where
  | Memberships : IdentityIncldue
  | Campaign : IdentityIncldue
deriving DecidableEq

/-- The `as_str` method generated by `enum_str!` for `IdentityIncldue`. -/
def IdentityIncldue.as_str : IdentityIncldue → String
  | .Memberships => "memberships"
  | .Campaign => "campaign"

/-- The generated `Serialize` impl: the enum serializes as its literal
string. -/
def IdentityIncldue.serializeJson (v : IdentityIncldue) : Json :=
  .str v.as_str

/-- The generated visitor body `visit_str` for `IdentityIncldue`: exact
string match against each declared literal, otherwise an error naming the
enum and the offending value. -/
def IdentityIncldue.visit_str (value : String) : Except String IdentityIncldue :=
  if value = "memberships" then .ok .Memberships
  else if value = "campaign" then .ok .Campaign
  else .error ("unknown IdentityIncldue variant: " ++ value)

/-- The generated `Deserialize` impl: `deserialize_str` hands a JSON
string to the visitor and rejects every other JSON type. -/
def IdentityIncldue.decodeJson : Json → Except String IdentityIncldue
  | .str s => IdentityIncldue.visit_str s
  | _ => .error ("invalid type: expected a string for IdentityIncldue")

/-- Closed enum `LastChrgeStatus` declared through `enum_str!` in its
default-literal mode: each literal is `stringify!` of the variant name,
verbatim. -/
inductive LastChrgeStatus where
  | Paid : LastChrgeStatus
  | Declined : LastChrgeStatus
  | Deleted : LastChrgeStatus
  | Pending : LastChrgeStatus
  | Refunded : LastChrgeStatus
  | Fraud : LastChrgeStatus
  | Other : LastChrgeStatus
deriving DecidableEq

/-- The `as_str` method for `LastChrgeStatus`: `stringify!(Paid)` is the
token text `Paid`, so the literals keep their capitalized spelling. -/
def LastChrgeStatus.as_str : LastChrgeStatus → String
  | .Paid => "Paid"
  | .Declined => "Declined"
  | .Deleted => "Deleted"
  | .Pending => "Pending"
  | .Refunded => "Refunded"
  | .Fraud => "Fraud"
  | .Other => "Other"

/-- The generated `Serialize` impl for `LastChrgeStatus`. -/
def LastChrgeStatus.serializeJson (v : LastChrgeStatus) : Json :=
  .str v.as_str

/-- The generated visitor body `visit_str` for `LastChrgeStatus`. -/
def LastChrgeStatus.visit_str (value : String) : Except String LastChrgeStatus :=
  if value = "Paid" then .ok .Paid
  else if value = "Declined" then .ok .Declined
  else if value = "Deleted" then .ok .Deleted
  else if value = "Pending" then .ok .Pending
  else if value = "Refunded" then .ok .Refunded
  else if value = "Fraud" then .ok .Fraud
  else if value = "Other" then .ok .Other
  else .error ("unknown LastChrgeStatus variant: " ++ value)

/-- The generated `Deserialize` impl for `LastChrgeStatus`. -/
def LastChrgeStatus.decodeJson : Json → Except String LastChrgeStatus
  | .str s => LastChrgeStatus.visit_str s
  | _ => .error ("invalid type: expected a string for LastChrgeStatus")

/-- Closed enum `PatronStatus` declared through `enum_str!` with explicit
literals. -/
inductive PatronStatus where
  | ActivePatron : PatronStatus
  | DeclinedPatron : PatronStatus
  | FormerPatron : PatronStatus
deriving DecidableEq

/-- The `as_str` method for `PatronStatus`. -/
def PatronStatus.as_str : PatronStatus → String
  | .ActivePatron => "active_patron"
  | .DeclinedPatron => "declined_patron"
  | .FormerPatron => "former_patron"

/-- The generated `Serialize` impl for `PatronStatus`. -/
def PatronStatus.serializeJson (v : PatronStatus) : Json :=
  .str v.as_str

/-- The generated visitor body `visit_str` for `PatronStatus`. -/
def PatronStatus.visit_str (value : String) : Except String PatronStatus :=
  if value = "active_patron" then .ok .ActivePatron
  else if value = "declined_patron" then .ok .DeclinedPatron
  else if value = "former_patron" then .ok .FormerPatron
  else .error ("unknown PatronStatus variant: " ++ value)

/-- The generated `Deserialize` impl for `PatronStatus`. -/
def PatronStatus.decodeJson : Json → Except String PatronStatus
  | .str s => PatronStatus.visit_str s
  | _ => .error ("invalid type: expected a string for PatronStatus")

/-- The primary-only document envelope `DocResponse<D>`. -/
structure DocResponse (D : Type) where
  data : D

/-- Derived deserialization of `DocResponse<D>`: a JSON object whose
required `data` field decodes as `D`; unknown keys are ignored. -/
def decodeDocResponse (dD : Json → Except String D) : Json → Except String (DocResponse D)
  | .obj kvs =>
    match getReqField dD "data" kvs with
    | .ok d => .ok ⟨d⟩
    | .error e => .error e
  | _ => .error ("invalid type: expected a JSON object for DocResponse")

/-- The envelope with includes `DocResponseInclude<D, I>`; the `include`
field is named `include_` because `include` is a Lean keyword. -/
structure DocResponseInclude (D I : Type) where
  data : D
  include_ : List I

/-- Derived deserialization of `DocResponseInclude<D, I>`: a JSON object
with required `data` and required `include` fields (`include: Vec<I>`
carries no serde default attribute, so absence is an error); unknown keys
are ignored. -/
def decodeDocResponseInclude (dD : Json → Except String D) (dI : Json → Except String I) :
    Json → Except String (DocResponseInclude D I)
  | .obj kvs =>
    match getUnique "data" kvs with
    | .error e => .error e
    | .ok dataOpt =>
      match getUnique "include" kvs with
      | .error e => .error e
      | .ok includeOpt =>
        match dataOpt with
        | none => .error ("missing field data")
        | some jd =>
          match includeOpt with
          | none => .error ("missing field include")
          | some ji =>
            match dD jd with
            | .error e => .error e
            | .ok d =>
              match decodeVec dI ji with
              | .error e => .error e
              | .ok is => .ok ⟨d, is⟩
  | _ => .error ("invalid type: expected a JSON object for DocResponseInclude")

/-- The generic resource record `ApiDocument<A>`: type tag (serialized as
`type`), identifier, and attributes. -/
structure ApiDocument (A : Type) where
  document_type : String
  id : String
  attributes : A

/-- Derived deserialization of `ApiDocument<A>`: required `type`, `id`
and `attributes` keys; unknown keys are ignored. -/
def decodeApiDocument (dA : Json → Except String A) : Json → Except String (ApiDocument A)
  | .obj kvs => do
    let t ← getReqField decodeString "type" kvs
    let i ← getReqField decodeString "id" kvs
    let a ← getReqField dA "attributes" kvs
    pure ⟨t, i, a⟩
  | _ => .error ("invalid type: expected a JSON object for ApiDocument")

/-- The identity record attributes `UserAttributes` (field-for-field from
the source; optional Rust fields are `Option`). -/
structure UserAttributes where
  first_name : String
  last_name : String
  full_name : String
  vanity : Option String
  email : String
  about : Option String
  facebook_id : Option String
  image_url : String
  thumb_url : String
  youtube : Option String
  twitter : Option String
  facebook : Option String
  created : DateTimeUtc
  url : String
deriving DecidableEq

/-- Derived deserialization of `UserAttributes`: required fields must be
present, `Option` fields default to `none` when absent, unknown keys are
ignored. -/
def decodeUserAttributes : Json → Except String UserAttributes
  | .obj kvs => do
    let first_name ← getReqField decodeString "first_name" kvs
    let last_name ← getReqField decodeString "last_name" kvs
    let full_name ← getReqField decodeString "full_name" kvs
    let vanity ← getOptField decodeString "vanity" kvs
    let email ← getReqField decodeString "email" kvs
    let about ← getOptField decodeString "about" kvs
    let facebook_id ← getOptField decodeString "facebook_id" kvs
    let image_url ← getReqField decodeString "image_url" kvs
    let thumb_url ← getReqField decodeString "thumb_url" kvs
    let youtube ← getOptField decodeString "youtube" kvs
    let twitter ← getOptField decodeString "twitter" kvs
    let facebook ← getOptField decodeString "facebook" kvs
    let created ← getReqField decodeDateTime "created" kvs
    let url ← getReqField decodeString "url" kvs
    pure ⟨first_name, last_name, full_name, vanity, email, about, facebook_id,
          image_url, thumb_url, youtube, twitter, facebook, created, url⟩
  | _ => .error ("invalid type: expected a JSON object for UserAttributes")

/-- The membership record attributes `MemberAttributes` (field-for-field
from the source). -/
structure MemberAttributes where
  campaign_lifetime_support_cents : Int
  currently_entitled_amount_cents : Int
  email : Option String
  full_name : String
  is_follower : Bool
  last_charge_date : DateTimeUtc
  last_charge_status : Option LastChrgeStatus
  lifetime_support_cents : Int
  next_charge_date : DateTimeUtc
  note : String
  patron_status : Option PatronStatus
  pledge_cadence : Int
  pledge_relationship_start : DateTimeUtc
  will_pay_amount_cents : Int
deriving DecidableEq

/-- Derived deserialization of `MemberAttributes`: the two closed-enum
fields go through the `enum_str!`-generated codecs inside `Option`. -/
def decodeMemberAttributes : Json → Except String MemberAttributes
  | .obj kvs => do
    let clsc ← getReqField decodeI64 "campaign_lifetime_support_cents" kvs
    let ceac ← getReqField decodeI64 "currently_entitled_amount_cents" kvs
    let email ← getOptField decodeString "email" kvs
    let full_name ← getReqField decodeString "full_name" kvs
    let is_follower ← getReqField decodeBool "is_follower" kvs
    let last_charge_date ← getReqField decodeDateTime "last_charge_date" kvs
    let last_charge_status ← getOptField LastChrgeStatus.decodeJson "last_charge_status" kvs
    let lsc ← getReqField decodeI64 "lifetime_support_cents" kvs
    let next_charge_date ← getReqField decodeDateTime "next_charge_date" kvs
    let note ← getReqField decodeString "note" kvs
    let patron_status ← getOptField PatronStatus.decodeJson "patron_status" kvs
    let pledge_cadence ← getReqField decodeI64 "pledge_cadence" kvs
    let prs ← getReqField decodeDateTime "pledge_relationship_start" kvs
    let wpac ← getReqField decodeI64 "will_pay_amount_cents" kvs
    pure ⟨clsc, ceac, email, full_name, is_follower, last_charge_date,
          last_charge_status, lsc, next_charge_date, note, patron_status,
          pledge_cadence, prs, wpac⟩
  | _ => .error ("invalid type: expected a JSON object for MemberAttributes")

/-- The `User` alias `ApiDocument<UserAttributes>`. -/
def User := ApiDocument UserAttributes

/-- The `Member` alias `ApiDocument<MemberAttributes>`. -/
def Member := ApiDocument MemberAttributes

/-- Deserializer for `User`. -/
def decodeUser : Json → Except String User :=
  decodeApiDocument decodeUserAttributes

/-- Deserializer for `Member`. -/
def decodeMember : Json → Except String Member :=
  decodeApiDocument decodeMemberAttributes

/-- Modelled from the spec: `ApiError` is declared in the crate root,
which is not part of the visible source; the spec treats each server
error as an opaque payload that is decoded and re-surfaced, not
interpreted, so it is modelled as the JSON value it carries. -/
structure ApiError where
  payload : Json

/-- Modelled from the spec: deserializing an opaque error payload accepts
any JSON value. -/
def decodeApiError (j : Json) : Except String ApiError :=
  .ok ⟨j⟩

/-- The failure-body wrapper `ApiErrorResponse` with its required
`errors: Vec<ApiError>` field. -/
structure ApiErrorResponse where
  errors : List ApiError

/-- Derived deserialization of `ApiErrorResponse`. -/
def decodeApiErrorResponse : Json → Except String ApiErrorResponse
  | .obj kvs =>
    match getReqField (decodeVec decodeApiError) "errors" kvs with
    | .ok errs => .ok ⟨errs⟩
    | .error e => .error e
  | _ => .error ("invalid type: expected a JSON object for ApiErrorResponse")

/-- Modelled from the spec: `PatreonError` lives in the crate root; per
the spec's error taxonomy it has a reported-API-failure variant carrying
the HTTP status and the decoded error list, and a structural-decode
variant produced by the `From` conversion the `?` operator applies to
serde_json errors. -/
inductive PatreonError where
  | patreonApi : Nat → List ApiError → PatreonError
  | serde : String → PatreonError

/-- The model of `serde_json::from_str::<T>`: parse the whole input as
JSON, then run the type's deserializer. -/
def from_str (d : Json → Except String α) (s : String) : Except String α :=
  match parseTop s with
  | none => .error ("invalid JSON syntax")
  | some j => d j

/-- HTTP success classification `StatusCode::is_success` (2xx) from the
http crate used by reqwest. -/
def statusIsSuccess (status : Nat) : Bool :=
  200 ≤ status && status < 300

/-- The decoding core of `PatreonApi::api_call` after the transport has
produced a status and a body: success passes the body through, failure
decodes the body as `ApiErrorResponse` and wraps the error list with the
status into `PatreonError::PatreonApi`; a body that fails to decode
propagates a structural serde error via `?`. -/
def api_call (status : Nat) (text : String) : Except PatreonError String :=
  if statusIsSuccess status then .ok text
  else
    match from_str decodeApiErrorResponse text with
    | .ok resp => .error (.patreonApi status resp.errors)
    | .error e => .error (.serde e)

/-- The decoding core of `PatreonApi::call_data`: feed the body returned
by `api_call` to the `DocResponse<T>` deserializer and project its `data`
field. -/
def call_data (dT : Json → Except String T) (status : Nat) (text : String) :
    Except PatreonError T :=
  match api_call status text with
  | .error e => .error e
  | .ok json =>
    match from_str (decodeDocResponse dT) json with
    | .ok r => .ok r.data
    | .error e => .error (.serde e)

/-- The decoding core of `PatreonApi::call_data_and_include`: decode the
body as `DocResponseInclude<D, I>` and return the data and include pair. -/
def call_data_and_include (dD : Json → Except String D) (dI : Json → Except String I)
    (status : Nat) (text : String) : Except PatreonError (D × List I) :=
  match api_call status text with
  | .error e => .error e
  | .ok json =>
    match from_str (decodeDocResponseInclude dD dI) json with
    | .ok r => .ok (r.data, r.include_)
    | .error e => .error (.serde e)

/-- Unfolding of `fieldValues` over a cons cell. -/
theorem fieldValues_cons (name k : String) (v : Json) (tl : List (String × Json)) :
    fieldValues name ((k, v) :: tl) =
      if k = name then v :: fieldValues name tl else fieldValues name tl := by
  unfold fieldValues
  rw [List.filter_cons]
  by_cases h : k = name
  · simp [h]
  · simp [h]

/-- A key occurs in an object exactly when it binds at least one value. -/
theorem any_key_iff_fieldValues_ne_nil (name : String) (kvs : List (String × Json)) :
    kvs.any (fun p => p.1 == name) = true ↔ fieldValues name kvs ≠ [] := by
  induction kvs with
  | nil => simp [fieldValues]
  | cons hd tl ih =>
    obtain ⟨k, v⟩ := hd
    rw [List.any_cons, fieldValues_cons]
    by_cases h : k = name
    · simp [h]
    · simp [h, ih]

/-- Trichotomy for `getUnique`: no occurrence gives `ok none`, a unique
occurrence gives its value, two or more occurrences give the duplicate
error. -/
theorem getUnique_spec (name : String) (kvs : List (String × Json)) :
    (getUnique name kvs = .ok none ∧ fieldValues name kvs = []) ∨
      (∃ v, getUnique name kvs = .ok (some v) ∧ fieldValues name kvs = [v]) ∨
      ((∃ e, getUnique name kvs = .error e) ∧ 2 ≤ (fieldValues name kvs).length) := by
  induction kvs with
  | nil => exact Or.inl ⟨rfl, rfl⟩
  | cons hd tl ih =>
    obtain ⟨k, v⟩ := hd
    by_cases h : k = name
    · subst h
      rw [show getUnique k ((k, v) :: tl) =
            (if tl.any (fun p => p.1 == k) then .error ("duplicate field " ++ k)
             else .ok (some v)) by simp [getUnique]]
      rw [fieldValues_cons, if_pos rfl]
      by_cases ha : tl.any (fun p => p.1 == k) = true
      · refine Or.inr (Or.inr ⟨⟨"duplicate field " ++ k, by rw [if_pos ha]⟩, ?_⟩)
        have hne := (any_key_iff_fieldValues_ne_nil k tl).mp ha
        cases hfv : fieldValues k tl with
        | nil => exact absurd hfv hne
        | cons a l => simp
      · refine Or.inr (Or.inl ⟨v, by rw [if_neg ha], ?_⟩)
        have hnil : fieldValues k tl = [] := by
          by_contra hne
          exact ha ((any_key_iff_fieldValues_ne_nil k tl).mpr hne)
        rw [hnil]
    · rw [show getUnique name ((k, v) :: tl) = getUnique name tl by simp [getUnique, h]]
      rw [fieldValues_cons, if_neg h]
      exact ih

/-- The unique-value reading of `getUnique`. -/
theorem getUnique_ok_some_iff (name : String) (kvs : List (String × Json)) (v : Json) :
    getUnique name kvs = .ok (some v) ↔ fieldValues name kvs = [v] := by
  rcases getUnique_spec name kvs with ⟨h1, h2⟩ | ⟨w, h1, h2⟩ | ⟨⟨e, h1⟩, h2⟩
  · rw [h1, h2]
    simp
  · rw [h1, h2]
    simp [eq_comm]
  · rw [h1]
    constructor
    · intro h
      exact absurd h (by simp)
    · intro h
      rw [h] at h2
      simp at h2

/-- The no-occurrence reading of `getUnique`. -/
theorem getUnique_ok_none_iff (name : String) (kvs : List (String × Json)) :
    getUnique name kvs = .ok none ↔ fieldValues name kvs = [] := by
  rcases getUnique_spec name kvs with ⟨h1, h2⟩ | ⟨w, h1, h2⟩ | ⟨⟨e, h1⟩, h2⟩
  · rw [h1, h2]
    simp
  · rw [h1, h2]
    simp
  · rw [h1]
    constructor
    · intro h
      exact absurd h (by simp)
    · intro h
      rw [h] at h2
      simp at h2

/-- An absent key binds no values. -/
theorem fieldValues_eq_nil_of_not_mem (name : String) (kvs : List (String × Json))
    (h : name ∉ kvs.map Prod.fst) : fieldValues name kvs = [] := by
  induction kvs with
  | nil => rfl
  | cons hd tl ih =>
    obtain ⟨k, v⟩ := hd
    rw [List.map_cons] at h
    simp only [List.mem_cons, not_or] at h
    rw [fieldValues_cons, if_neg (fun hk => h.1 (hk.symm))]
    exact ih h.2

/-- Success of a required-field decode: the key binds exactly one value
and that value decodes. -/
theorem getReqField_ok_iff {α : Type} (dA : Json → Except String α) (name : String)
    (kvs : List (String × Json)) (a : α) :
    getReqField dA name kvs = .ok a ↔
      ∃ v, fieldValues name kvs = [v] ∧ dA v = .ok a := by
  unfold getReqField
  rcases getUnique_spec name kvs with ⟨h1, h2⟩ | ⟨w, h1, h2⟩ | ⟨⟨e, h1⟩, h2⟩
  · rw [h1, h2]
    simp
  · rw [h1, h2]
    simp
  · rw [h1]
    constructor
    · intro h
      exact absurd h (by simp)
    · rintro ⟨v, hv, _⟩
      rw [hv] at h2
      simp at h2

/-- `List.any` ignores an element the predicate rejects wherever it sits. -/
theorem any_append_middle {α : Type} (P : α → Bool) (x : α) (l1 l2 : List α)
    (h : P x = false) : (l1 ++ x :: l2).any P = (l1 ++ l2).any P := by
  simp [List.any_append, List.any_cons, h]

/-- `getUnique` ignores an object member under a different key wherever
it sits. -/
theorem getUnique_insert (name k : String) (v : Json) (l1 l2 : List (String × Json))
    (h : k ≠ name) :
    getUnique name (l1 ++ (k, v) :: l2) = getUnique name (l1 ++ l2) := by
  have hP : ((fun p => p.1 == name) ((k, v) : String × Json)) = false := by
    simp [h]
  induction l1 with
  | nil =>
    rw [List.nil_append, List.nil_append,
        show getUnique name ((k, v) :: l2) = getUnique name l2 by simp [getUnique, h]]
  | cons hd tl ih =>
    obtain ⟨k2, w⟩ := hd
    by_cases h2 : k2 = name
    · subst h2
      rw [List.cons_append, List.cons_append,
          show ∀ l, getUnique k2 ((k2, w) :: l) =
            (if l.any (fun p => p.1 == k2) then .error ("duplicate field " ++ k2)
             else .ok (some w)) from fun l => by simp [getUnique],
          show ∀ l, getUnique k2 ((k2, w) :: l) =
            (if l.any (fun p => p.1 == k2) then .error ("duplicate field " ++ k2)
             else .ok (some w)) from fun l => by simp [getUnique]]
      rw [any_append_middle (fun p => p.1 == k2) (k, v) tl l2 hP]
    · rw [List.cons_append, List.cons_append,
          show ∀ l, getUnique name ((k2, w) :: l) = getUnique name l from
            fun l => by simp [getUnique, h2],
          show ∀ l, getUnique name ((k2, w) :: l) = getUnique name l from
            fun l => by simp [getUnique, h2]]
      exact ih

/-- A successful `mapME` produces as many outputs as inputs. -/
theorem mapME_length {α β : Type} (f : α → Except String β) :
    ∀ (xs : List α) (ys : List β), mapME f xs = .ok ys → ys.length = xs.length := by
  intro xs
  induction xs with
  | nil =>
    intro ys h
    rw [show mapME f [] = .ok [] from rfl] at h
    cases h
    rfl
  | cons x xt ih =>
    intro ys h
    rw [show mapME f (x :: xt) = (match f x with
          | .error e => .error e
          | .ok y => match mapME f xt with
            | .error e => .error e
            | .ok ys2 => .ok (y :: ys2)) from rfl] at h
    cases hf : f x with
    | error e =>
      rw [hf] at h
      exact absurd h (by simp)
    | ok y =>
      rw [hf] at h
      cases hm : mapME f xt with
      | error e =>
        rw [hm] at h
        exact absurd h (by simp)
      | ok yt =>
        rw [hm] at h
        have hys : ys = y :: yt := by
          cases h
          rfl
        subst hys
        simp [ih yt hm]

/-- A successful `mapME` decodes element `i` of the input to element `i`
of the output: order is preserved pointwise. -/
theorem mapME_get {α β : Type} (f : α → Except String β) :
    ∀ (xs : List α) (ys : List β), mapME f xs = .ok ys →
      ∀ (i : Nat) (h1 : i < xs.length) (h2 : i < ys.length),
        f (xs.get ⟨i, h1⟩) = .ok (ys.get ⟨i, h2⟩) := by
  intro xs
  induction xs with
  | nil =>
    intro ys h i h1 h2
    simp at h1
  | cons x xt ih =>
    intro ys h i h1 h2
    rw [show mapME f (x :: xt) = (match f x with
          | .error e => .error e
          | .ok y => match mapME f xt with
            | .error e => .error e
            | .ok ys2 => .ok (y :: ys2)) from rfl] at h
    cases hf : f x with
    | error e =>
      rw [hf] at h
      exact absurd h (by simp)
    | ok y =>
      rw [hf] at h
      cases hm : mapME f xt with
      | error e =>
        rw [hm] at h
        exact absurd h (by simp)
      | ok yt =>
        rw [hm] at h
        have hys : ys = y :: yt := by
          cases h
          rfl
        subst hys
        cases i with
        | zero => exact hf
        | succ n =>
          exact ih yt hm n (Nat.lt_of_succ_lt_succ h1) (Nat.lt_of_succ_lt_succ h2)

/-- An `Except` computation is a typed success or a typed failure. -/
theorem except_total {ε α : Type} (x : Except ε α) :
    (∃ v, x = .ok v) ∨ (∃ e, x = .error e) := by
  cases x with
  | ok v => exact Or.inl ⟨v, rfl⟩
  | error e => exact Or.inr ⟨e, rfl⟩

/-- Decode success for `LastChrgeStatus` happens exactly on its bound
literal. -/
theorem lastChrgeStatus_visit_str_ok_iff (s : String) (v : LastChrgeStatus) :
    LastChrgeStatus.visit_str s = .ok v ↔ s = v.as_str := by
  cases v <;>
    simp only [LastChrgeStatus.visit_str, LastChrgeStatus.as_str] <;>
    split_ifs <;> simp_all

/-- Decode failure and error text for `LastChrgeStatus` on any string
outside the literal set. -/
theorem lastChrgeStatus_visit_str_unknown (s : String)
    (h : s ∉ ["Paid", "Declined", "Deleted", "Pending", "Refunded", "Fraud", "Other"]) :
    LastChrgeStatus.visit_str s = .error ("unknown LastChrgeStatus variant: " ++ s) := by
  simp only [List.mem_cons, List.not_mem_nil, or_false, not_or] at h
  obtain ⟨h1, h2, h3, h4, h5, h6, h7⟩ := h
  simp [LastChrgeStatus.visit_str, h1, h2, h3, h4, h5, h6, h7]

/-- The decodable strings for `LastChrgeStatus` are exactly its seven
literals. -/
theorem lastChrgeStatus_visit_str_ok_mem (s : String) :
    (∃ v, LastChrgeStatus.visit_str s = .ok v) ↔
      s ∈ ["Paid", "Declined", "Deleted", "Pending", "Refunded", "Fraud", "Other"] := by
  constructor
  · rintro ⟨v, hv⟩
    rw [lastChrgeStatus_visit_str_ok_iff] at hv
    subst hv
    cases v <;> simp [LastChrgeStatus.as_str]
  · intro hs
    simp only [List.mem_cons, List.not_mem_nil, or_false] at hs
    rcases hs with h | h | h | h | h | h | h <;> subst h
    · exact ⟨.Paid, rfl⟩
    · exact ⟨.Declined, rfl⟩
    · exact ⟨.Deleted, rfl⟩
    · exact ⟨.Pending, rfl⟩
    · exact ⟨.Refunded, rfl⟩
    · exact ⟨.Fraud, rfl⟩
    · exact ⟨.Other, rfl⟩

/-- Decode success for `IdentityIncldue` happens exactly on its bound
literal. -/
theorem identityIncldue_visit_str_ok_iff (s : String) (v : IdentityIncldue) :
    IdentityIncldue.visit_str s = .ok v ↔ s = v.as_str := by
  cases v <;>
    simp only [IdentityIncldue.visit_str, IdentityIncldue.as_str] <;>
    split_ifs <;> simp_all

/-- Decode failure and error text for `IdentityIncldue` outside the
literal set. -/
theorem identityIncldue_visit_str_unknown (s : String)
    (h : s ∉ ["memberships", "campaign"]) :
    IdentityIncldue.visit_str s = .error ("unknown IdentityIncldue variant: " ++ s) := by
  simp only [List.mem_cons, List.not_mem_nil, or_false, not_or] at h
  obtain ⟨h1, h2⟩ := h
  simp [IdentityIncldue.visit_str, h1, h2]

/-- Decode success for `PatronStatus` happens exactly on its bound
literal. -/
theorem patronStatus_visit_str_ok_iff (s : String) (v : PatronStatus) :
    PatronStatus.visit_str s = .ok v ↔ s = v.as_str := by
  cases v <;>
    simp only [PatronStatus.visit_str, PatronStatus.as_str] <;>
    split_ifs <;> simp_all

/-- Decode failure and error text for `PatronStatus` outside the literal
set. -/
theorem patronStatus_visit_str_unknown (s : String)
    (h : s ∉ ["active_patron", "declined_patron", "former_patron"]) :
    PatronStatus.visit_str s = .error ("unknown PatronStatus variant: " ++ s) := by
  simp only [List.mem_cons, List.not_mem_nil, or_false, not_or] at h
  obtain ⟨h1, h2, h3⟩ := h
  simp [PatronStatus.visit_str, h1, h2, h3]

/-- When the input is not valid JSON, `from_str` is the syntax error. -/
theorem from_str_parse_none {α : Type} (d : Json → Except String α) (s : String)
    (h : parseTop s = none) : from_str d s = .error ("invalid JSON syntax") := by
  unfold from_str
  rw [h]

/-- When the input parses, `from_str` is the decoder on the parsed value. -/
theorem from_str_parse_some {α : Type} (d : Json → Except String α) (s : String)
    (j : Json) (h : parseTop s = some j) : from_str d s = d j := by
  unfold from_str
  rw [h]

/-- Success of the `DocResponse` deserializer on an object is success of
its required `data` field. -/
theorem decodeDocResponse_obj_ok_iff {D : Type} (dD : Json → Except String D)
    (kvs : List (String × Json)) (d : D) :
    decodeDocResponse dD (.obj kvs) = .ok ⟨d⟩ ↔ getReqField dD "data" kvs = .ok d := by
  rw [show decodeDocResponse dD (.obj kvs) = (match getReqField dD "data" kvs with
        | .ok d2 => .ok ⟨d2⟩
        | .error e => .error e) from rfl]
  cases hg : getReqField dD "data" kvs with
  | ok d2 => simp [DocResponse.mk.injEq]
  | error e => simp

/-- C1 counterexample: the claim says the charge-status wire literals are
lowercase, but the default mode of `enum_str!` binds `stringify!(Paid)`,
the verbatim token `Paid`; encode produces `Paid` (not `paid`) and decode
rejects `paid`. -/
theorem spec_C1_counterexample :
    LastChrgeStatus.as_str LastChrgeStatus.Paid ≠ "paid" ∧
      LastChrgeStatus.visit_str "paid" =
        .error ("unknown LastChrgeStatus variant: paid") := by
  exact ⟨by decide, rfl⟩

/-- C1 (amended): the wire literals of `LastChrgeStatus` are the variant
names verbatim, capitalized as declared: encode maps the seven symbols to
`Paid`, `Declined`, `Deleted`, `Pending`, `Refunded`, `Fraud`, `Other`,
and decode accepts exactly those seven strings. -/
theorem spec_C1 :
    (LastChrgeStatus.as_str .Paid = "Paid" ∧
     LastChrgeStatus.as_str .Declined = "Declined" ∧
     LastChrgeStatus.as_str .Deleted = "Deleted" ∧
     LastChrgeStatus.as_str .Pending = "Pending" ∧
     LastChrgeStatus.as_str .Refunded = "Refunded" ∧
     LastChrgeStatus.as_str .Fraud = "Fraud" ∧
     LastChrgeStatus.as_str .Other = "Other") ∧
    ∀ s : String, (∃ v, LastChrgeStatus.visit_str s = .ok v) ↔
      s ∈ ["Paid", "Declined", "Deleted", "Pending", "Refunded", "Fraud", "Other"] := by
  exact ⟨⟨rfl, rfl, rfl, rfl, rfl, rfl, rfl⟩, lastChrgeStatus_visit_str_ok_mem⟩

/-- C2: for each of the three closed enums, decoding the serialized form
of every symbol yields the symbol again. -/
theorem spec_C2 :
    (∀ v : IdentityIncldue, IdentityIncldue.decodeJson (IdentityIncldue.serializeJson v) = .ok v) ∧
    (∀ v : LastChrgeStatus, LastChrgeStatus.decodeJson (LastChrgeStatus.serializeJson v) = .ok v) ∧
    (∀ v : PatronStatus, PatronStatus.decodeJson (PatronStatus.serializeJson v) = .ok v) := by
  refine ⟨fun v => ?_, fun v => ?_, fun v => ?_⟩ <;> cases v <;> rfl

/-- Concrete membership attributes object whose `patron_status` is the
undeclared string `suspended`. -/
def memberSuspendedJson : Json := .obj [
  ("campaign_lifetime_support_cents", .num (.int 100)),
  ("currently_entitled_amount_cents", .num (.int 200)),
  ("full_name", .str "A B"),
  ("is_follower", .bool false),
  ("last_charge_date", .str "2021-01-02T03:04:05Z"),
  ("lifetime_support_cents", .num (.int 300)),
  ("next_charge_date", .str "2021-02-02T03:04:05Z"),
  ("note", .str ""),
  ("patron_status", .str "suspended"),
  ("pledge_cadence", .num (.int 1)),
  ("pledge_relationship_start", .str "2020-01-02T03:04:05Z"),
  ("will_pay_amount_cents", .num (.int 400))]

/-- C3: for each closed enum, decode succeeds with a symbol exactly on
that symbol's literal (case-sensitive, no trimming), and any string
outside the literal set fails with the error naming the enum and the
offending string; a membership record whose `patron_status` is
`suspended` fails to decode rather than defaulting. -/
theorem spec_C3 :
    ((∀ (s : String) (v : LastChrgeStatus),
        LastChrgeStatus.visit_str s = .ok v ↔ s = v.as_str) ∧
     (∀ s : String,
        s ∉ ["Paid", "Declined", "Deleted", "Pending", "Refunded", "Fraud", "Other"] →
        LastChrgeStatus.visit_str s = .error ("unknown LastChrgeStatus variant: " ++ s))) ∧
    ((∀ (s : String) (v : IdentityIncldue),
        IdentityIncldue.visit_str s = .ok v ↔ s = v.as_str) ∧
     (∀ s : String, s ∉ ["memberships", "campaign"] →
        IdentityIncldue.visit_str s = .error ("unknown IdentityIncldue variant: " ++ s))) ∧
    ((∀ (s : String) (v : PatronStatus),
        PatronStatus.visit_str s = .ok v ↔ s = v.as_str) ∧
     (∀ s : String, s ∉ ["active_patron", "declined_patron", "former_patron"] →
        PatronStatus.visit_str s = .error ("unknown PatronStatus variant: " ++ s))) ∧
    decodeMemberAttributes memberSuspendedJson =
      .error ("unknown PatronStatus variant: suspended") := by
  exact ⟨⟨lastChrgeStatus_visit_str_ok_iff, lastChrgeStatus_visit_str_unknown⟩,
         ⟨identityIncldue_visit_str_ok_iff, identityIncldue_visit_str_unknown⟩,
         ⟨patronStatus_visit_str_ok_iff, patronStatus_visit_str_unknown⟩,
         rfl⟩

/-- C3 witness: the unknown-string hypotheses discharged on concrete
inputs: the uppercase `ACTIVE_PATRON` is rejected (case sensitivity). -/
theorem spec_C3_witness :
    PatronStatus.visit_str "ACTIVE_PATRON" =
      .error ("unknown PatronStatus variant: " ++ "ACTIVE_PATRON") :=
  spec_C3.2.2.1.2 "ACTIVE_PATRON" (by decide)

/-- C4: under a failure status, a body that decodes as the errors wrapper
yields the reported-API-failure value carrying that status and the
decoded error list (not a structural-decode error); under a success
status the body is handed to envelope decoding unchanged. -/
theorem spec_C4 :
    (∀ (status : Nat) (text : String) (errs : List ApiError),
       statusIsSuccess status = false →
       from_str decodeApiErrorResponse text = .ok ⟨errs⟩ →
       api_call status text = .error (.patreonApi status errs)) ∧
    (∀ (status : Nat) (text : String), statusIsSuccess status = true →
       api_call status text = .ok text ∧
       ∀ {T : Type} (dT : Json → Except String T),
         call_data dT status text =
           (match from_str (decodeDocResponse dT) text with
            | .ok r => .ok r.data
            | .error e => .error (.serde e))) := by
  constructor
  · intro status text errs hs hd
    unfold api_call
    rw [hs]
    simp [hd]
  · intro status text hs
    constructor
    · unfold api_call
      rw [hs]
      simp
    · intro T dT
      unfold call_data api_call
      rw [hs]
      simp

/-- C4 witness: a 404 with body carrying one empty error object becomes
the reported failure with status 404 and that one-element list, and a 200
passes its body through. -/
theorem spec_C4_witness :
    api_call 404 "\x7b\"errors\":[\x7b\x7d]\x7d" =
        .error (.patreonApi 404 [⟨Json.obj []⟩]) ∧
      api_call 200 "\x7b\x7d" = .ok "\x7b\x7d" :=
  ⟨spec_C4.1 404 "\x7b\"errors\":[\x7b\x7d]\x7d" [⟨Json.obj []⟩] rfl rfl,
   (spec_C4.2 200 "\x7b\x7d" rfl).1⟩

/-- C5: decoding the primary-only envelope from raw bytes succeeds with
payload `d` exactly when the bytes are valid JSON, the top level is an
object carrying the `data` key exactly once, and that value decodes as
`d`; in every other case (invalid JSON, `data` absent or mistyped) the
result is an error, never a default. -/
theorem spec_C5 {D : Type} (dD : Json → Except String D) (s : String) (d : D) :
    from_str (decodeDocResponse dD) s = .ok ⟨d⟩ ↔
      ∃ kvs v, parseTop s = some (.obj kvs) ∧
        fieldValues "data" kvs = [v] ∧ dD v = .ok d := by
  cases hp : parseTop s with
  | none =>
    rw [from_str_parse_none _ _ hp]
    simp
  | some j =>
    rw [from_str_parse_some _ _ _ hp]
    cases j with
    | obj kvs =>
      rw [decodeDocResponse_obj_ok_iff, getReqField_ok_iff]
      constructor
      · rintro ⟨v, hv, hd⟩
        exact ⟨kvs, v, rfl, hv, hd⟩
      · rintro ⟨kvs2, v, hk, hv, hd⟩
        have : kvs2 = kvs := by
          injection hk with h2
          injection h2 with h3
          exact h3.symm
        subst this
        exact ⟨v, hv, hd⟩
    | null => simp [decodeDocResponse]
    | bool b => simp [decodeDocResponse]
    | num n => simp [decodeDocResponse]
    | str s2 => simp [decodeDocResponse]
    | arr js => simp [decodeDocResponse]

/-- Evaluation of the include-envelope deserializer on the canonical
two-key object: success is componentwise success. -/
theorem decodeDocResponseInclude_pair {D I : Type} (dD : Json → Except String D)
    (dI : Json → Except String I) (jd : Json) (js : List Json) (d : D) (is : List I) :
    decodeDocResponseInclude dD dI (.obj [("data", jd), ("include", .arr js)]) =
        .ok ⟨d, is⟩ ↔
      (dD jd = .ok d ∧ mapME dI js = .ok is) := by
  rw [show decodeDocResponseInclude dD dI (.obj [("data", jd), ("include", .arr js)]) =
        (match dD jd with
         | .error e => .error e
         | .ok d2 =>
           match mapME dI js with
           | .error e => .error e
           | .ok is2 => .ok ⟨d2, is2⟩) from rfl]
  cases hd : dD jd with
  | error e => simp
  | ok d2 =>
    cases hm : mapME dI js with
    | error e => simp
    | ok is2 => simp [DocResponseInclude.mk.injEq]

/-- C6: decoding the envelope-with-includes from bytes that encode an
object with `data` and an `include` array succeeds exactly when both
components decode, and a successful decode preserves the include
sequence's length and element order (duplicates and the empty sequence
included, no deduplication). -/
theorem spec_C6 {D I : Type} (dD : Json → Except String D) (dI : Json → Except String I)
    (s : String) (jd : Json) (js : List Json) (d : D) (is : List I)
    (hp : parseTop s = some (.obj [("data", jd), ("include", .arr js)])) :
    (from_str (decodeDocResponseInclude dD dI) s = .ok ⟨d, is⟩ ↔
       (dD jd = .ok d ∧ mapME dI js = .ok is)) ∧
    (from_str (decodeDocResponseInclude dD dI) s = .ok ⟨d, is⟩ →
       is.length = js.length ∧
       ∀ (i : Nat) (h1 : i < js.length) (h2 : i < is.length),
         dI (js.get ⟨i, h1⟩) = .ok (is.get ⟨i, h2⟩)) := by
  rw [from_str_parse_some _ _ _ hp, decodeDocResponseInclude_pair]
  refine ⟨Iff.rfl, ?_⟩
  rintro ⟨hd, hm⟩
  exact ⟨mapME_length dI js is hm, fun i h1 h2 => mapME_get dI js is hm i h1 h2⟩

/-- C6 witness: a concrete envelope with a duplicated include element
decodes to the pair with the three elements in received order. -/
theorem spec_C6_witness :
    from_str (decodeDocResponseInclude decodeI64 decodeI64)
        "\x7b\"data\":0,\"include\":[3,3,5]\x7d" =
      .ok ⟨0, [3, 3, 5]⟩ :=
  (spec_C6 decodeI64 decodeI64 "\x7b\"data\":0,\"include\":[3,3,5]\x7d"
      (Json.num (.int 0))
      [Json.num (.int 3), Json.num (.int 3), Json.num (.int 5)]
      0 [3, 3, 5] rfl).1.mpr ⟨rfl, rfl⟩

/-- C7: the include envelope treats the `include` key as required: any
top-level object without it fails to decode with an error instead of
defaulting to an empty sequence. -/
theorem spec_C7 {D I : Type} (dD : Json → Except String D) (dI : Json → Except String I)
    (s : String) (kvs : List (String × Json))
    (hp : parseTop s = some (.obj kvs)) (hnk : "include" ∉ kvs.map Prod.fst) :
    ∃ e, from_str (decodeDocResponseInclude dD dI) s = .error e := by
  rw [from_str_parse_some _ _ _ hp]
  have hinc : getUnique "include" kvs = .ok none :=
    (getUnique_ok_none_iff _ _).mpr (fieldValues_eq_nil_of_not_mem _ _ hnk)
  rcases getUnique_spec "data" kvs with ⟨hd, _⟩ | ⟨w, hd, _⟩ | ⟨⟨e, hd⟩, _⟩ <;>
    simp only [decodeDocResponseInclude, hd, hinc] <;> exact ⟨_, rfl⟩

/-- C7 witness: a body with only `data` fails the include-envelope
decode. -/
theorem spec_C7_witness :
    ∃ e, from_str (decodeDocResponseInclude decodeI64 decodeI64)
        "\x7b\"data\":1\x7d" = .error e :=
  spec_C7 decodeI64 decodeI64 "\x7b\"data\":1\x7d"
    [("data", Json.num (.int 1))] rfl (by decide)

/-- The required fields of a concrete identity attributes object. -/
def userRequiredFields : List (String × Json) := [
  ("first_name", .str "Ada"),
  ("last_name", .str "L"),
  ("full_name", .str "Ada L"),
  ("email", .str "ada@example.com"),
  ("image_url", .str "img"),
  ("thumb_url", .str "th"),
  ("created", .str "2020-01-02T03:04:05Z"),
  ("url", .str "u")]

/-- Identity attributes input with every optional field absent. -/
def userAbsentJson : Json := .obj userRequiredFields

/-- Identity attributes input with every optional field JSON null. -/
def userNullJson : Json := .obj (userRequiredFields ++
  [("vanity", .null), ("about", .null), ("facebook_id", .null),
   ("youtube", .null), ("twitter", .null), ("facebook", .null)])

/-- Identity attributes input with every optional field present and
non-null. -/
def userSomeJson : Json := .obj (userRequiredFields ++
  [("vanity", .str "v"), ("about", .str "ab"), ("facebook_id", .str "fb"),
   ("youtube", .str "yt"), ("twitter", .str "tw"), ("facebook", .str "f")])

/-- The expected identity record with the given optional fields. -/
def userExpected (v ab fb yt tw f : Option String) : UserAttributes :=
  ⟨"Ada", "L", "Ada L", v, "ada@example.com", ab, fb, "img", "th", yt, tw, f,
   ⟨"2020-01-02T03:04:05Z"⟩, "u"⟩

/-- The required fields of a concrete membership attributes object. -/
def memberRequiredFields : List (String × Json) := [
  ("campaign_lifetime_support_cents", .num (.int 100)),
  ("currently_entitled_amount_cents", .num (.int 200)),
  ("full_name", .str "Ada L"),
  ("is_follower", .bool true),
  ("last_charge_date", .str "2021-01-02T03:04:05Z"),
  ("lifetime_support_cents", .num (.int 300)),
  ("next_charge_date", .str "2021-02-02T03:04:05Z"),
  ("note", .str "n"),
  ("pledge_cadence", .num (.int 12)),
  ("pledge_relationship_start", .str "2020-01-02T03:04:05Z"),
  ("will_pay_amount_cents", .num (.int 400))]

/-- Membership attributes input with every optional field absent. -/
def memberAbsentJson : Json := .obj memberRequiredFields

/-- Membership attributes input with every optional field JSON null. -/
def memberNullJson : Json := .obj (memberRequiredFields ++
  [("email", .null), ("last_charge_status", .null), ("patron_status", .null)])

/-- Membership attributes input with every optional field present and
non-null. -/
def memberSomeJson : Json := .obj (memberRequiredFields ++
  [("email", .str "e@x"), ("last_charge_status", .str "Paid"),
   ("patron_status", .str "active_patron")])

/-- The expected membership record with the given optional fields. -/
def memberExpected (em : Option String) (lcs : Option LastChrgeStatus)
    (ps : Option PatronStatus) : MemberAttributes :=
  ⟨100, 200, em, "Ada L", true, ⟨"2021-01-02T03:04:05Z"⟩, lcs, 300,
   ⟨"2021-02-02T03:04:05Z"⟩, "n", ps, 12, ⟨"2020-01-02T03:04:05Z"⟩, 400⟩

/-- C8: for every optional field of the identity and membership records,
an input with the field absent and an input with the field null both
decode to `none`, and present non-null values decode to the contained
value. -/
theorem spec_C8 :
    decodeUserAttributes userAbsentJson =
        .ok (userExpected none none none none none none) ∧
      decodeUserAttributes userNullJson =
        .ok (userExpected none none none none none none) ∧
      decodeUserAttributes userSomeJson =
        .ok (userExpected (some "v") (some "ab") (some "fb") (some "yt")
          (some "tw") (some "f")) ∧
      decodeMemberAttributes memberAbsentJson =
        .ok (memberExpected none none none) ∧
      decodeMemberAttributes memberNullJson =
        .ok (memberExpected none none none) ∧
      decodeMemberAttributes memberSomeJson =
        .ok (memberExpected (some "e@x") (some .Paid) (some .ActivePatron)) := by
  exact ⟨rfl, rfl, rfl, rfl, rfl, rfl⟩

/-- C9: every core decode operation is total on arbitrary input bytes: it
yields a typed success or a typed failure (the embedding is built from
total functions, so no input can abort a decode). -/
theorem spec_C9 (s : String) :
    ((∃ v, from_str (decodeDocResponse decodeUser) s = .ok v) ∨
       (∃ e, from_str (decodeDocResponse decodeUser) s = .error e)) ∧
    ((∃ v, from_str (decodeDocResponseInclude decodeUser decodeMember) s = .ok v) ∨
       (∃ e, from_str (decodeDocResponseInclude decodeUser decodeMember) s = .error e)) ∧
    ((∃ v, LastChrgeStatus.visit_str s = .ok v) ∨
       (∃ e, LastChrgeStatus.visit_str s = .error e)) ∧
    ((∃ v, from_str decodeApiErrorResponse s = .ok v) ∨
       (∃ e, from_str decodeApiErrorResponse s = .error e)) :=
  ⟨except_total _, except_total _, except_total _, except_total _⟩

/-- C10: record and envelope decoding ignore unrecognized keys: inserting
a member under any undeclared key anywhere in the object leaves the
decode result unchanged for the primary envelope, the include envelope
and the resource record. -/
theorem spec_C10 {D I A : Type} (dD : Json → Except String D)
    (dI : Json → Except String I) (dA : Json → Except String A)
    (l1 l2 : List (String × Json)) (k : String) (v : Json) :
    (k ≠ "data" →
       decodeDocResponse dD (.obj (l1 ++ (k, v) :: l2)) =
         decodeDocResponse dD (.obj (l1 ++ l2))) ∧
    (k ≠ "data" → k ≠ "include" →
       decodeDocResponseInclude dD dI (.obj (l1 ++ (k, v) :: l2)) =
         decodeDocResponseInclude dD dI (.obj (l1 ++ l2))) ∧
    (k ≠ "type" → k ≠ "id" → k ≠ "attributes" →
       decodeApiDocument dA (.obj (l1 ++ (k, v) :: l2)) =
         decodeApiDocument dA (.obj (l1 ++ l2))) := by
  refine ⟨?_, ?_, ?_⟩
  · intro h
    simp only [decodeDocResponse, getReqField, getUnique_insert "data" k v l1 l2 h]
  · intro h1 h2
    simp only [decodeDocResponseInclude, getUnique_insert "data" k v l1 l2 h1,
      getUnique_insert "include" k v l1 l2 h2]
  · intro h1 h2 h3
    simp only [decodeApiDocument, getReqField, getUnique_insert "type" k v l1 l2 h1,
      getUnique_insert "id" k v l1 l2 h2, getUnique_insert "attributes" k v l1 l2 h3]

/-- C10 witness: an extra `extra` key in front of `data` leaves the
primary-envelope decode unchanged. -/
theorem spec_C10_witness :
    decodeDocResponse decodeI64 (.obj [("extra", Json.null), ("data", Json.num (.int 7))]) =
      decodeDocResponse decodeI64 (.obj [("data", Json.num (.int 7))]) :=
  (spec_C10 decodeI64 decodeI64 decodeI64 [] [("data", Json.num (.int 7))]
    "extra" Json.null).1 (by decide)
